import Mathlib

/-!
Shallow embedding of the frame-conversion pipeline of the torchdynamo
repository (files `torchdynamo/convert_frame.py`, `torchdynamo/eval_frame.py`,
`torchdynamo/config.py`), together with theorems settling the specification
claims about it.

Modelling conventions:
* Python objects are identified by their `id()`, modelled as `Nat`.
* Python dictionaries keyed by object identity are modelled as association
  lists (`List (Nat × _)`), with assignment modelled by consing (the most
  recent binding wins, exactly like overwriting a dict slot).
* Exceptions are modelled by `Except`; the distinct exception classes of
  `torchdynamo/exc.py` become constructors of `TracerExc`.
* The unbounded recursion of `has_tensor` (convert_frame.py:137-171) is made
  total with an explicit fuel argument; fuel is an artefact of the embedding
  and theorems below show the result is independent of the fuel once it is
  at least `hasTensorFuel heap`.
* Calls into modules that are external collaborators (the symbolic tracer,
  guard construction, the backend) are modelled as oracle parameters of
  `ConvertEnv` describing their observable outcome, exactly at the call
  boundary where `convert_frame.py` consumes them.
* Logging calls are modelled as structured `LogEvent`s accumulated in the
  state; the text formatting of the messages is not modelled.  The
  `log.debug("Restarting analysis ...")` event inside the retry loop and the
  post-success `log.info` bytecode/guard dumps are elided.
-/

/-- The exception taxonomy visible to `convert_frame.py` (classes imported
from `torchdynamo/exc.py`).  `other` stands for any host-language exception
that is none of the named classes (e.g. `IndexError`). -/
inductive TracerExc where
  | unsupported (msg : String)
  | torchRuntimeError
  | backendCompilerFailed
  | assertionError
  | internalError
  | other (tag : Nat)
deriving DecidableEq, Repr

/-- Modelled from the spec: `unimplemented` lives in the missing module
`torchdynamo/exc.py`; per the spec's error taxonomy (§7) and §4.3
("exceeding it is `Unsupported(...)`", "classification fails fatally ...
`Unsupported`"), it raises `Unsupported(msg)`. -/
def unimplemented (msg : String) : TracerExc :=
  TracerExc.unsupported msg

/-- Outcome of one attempt of `transform_code_object(frame.f_code, transform)`
(convert_frame.py:313): the tracer either produces a new code object,
raises `RestartAnalysis`, raises `SkipFrame`, or raises some other
exception. -/
inductive TransformOutcome where
  | success (newCode : Nat)
  | restartAnalysis
  | skipFrame
  | raised (e : TracerExc)
deriving Repr

/-- Classification of a Python object as branched on by `has_tensor`
(convert_frame.py:144-171).  Each constructor corresponds to one branch of
the `isinstance`/`istype` cascade; container constructors carry the ids of
the child objects that branch iterates over. -/
inductive ObjKind where
  /-- `isinstance(obj, (torch.Tensor, torch.nn.Module))` -/
  | tensorOrModule
  /-- `istype(obj, (list, tuple))`; children are the elements -/
  | listOrTuple (children : List Nat)
  /-- `istype(obj, dict)`; children are `obj.values()` -/
  | dictObj (children : List Nat)
  /-- `istype(obj, (str, int, float, type(None), bool))` -/
  | primitive
  /-- `is_namedtuple(obj)`; children are `getattr(obj, v) for v in obj._fields` -/
  | namedtupleObj (children : List Nat)
  /-- `not is_allowed(obj) and hasattr(obj, "__dict__") and len(obj.__dict__)`;
  children are `obj.__dict__.values()` -/
  | objectDict (children : List Nat)
  /-- the final `else` branch: any other object -/
  | otherObj
deriving DecidableEq, Repr

/-- Lookup in an identity-keyed dictionary modelled as an association list
(first binding wins, so consing a new binding overwrites). -/
def alistFind {α : Type} : List (Nat × α) → Nat → Option α
  | [], _ => none
  | (k, v) :: rest, x => if x = k then some v else alistFind rest x

/-- Number of children an object contributes to the recursive scan. -/
def childCount : ObjKind → Nat
  | ObjKind.listOrTuple cs => cs.length
  | ObjKind.dictObj cs => cs.length
  | ObjKind.namedtupleObj cs => cs.length
  | ObjKind.objectDict cs => cs.length
  | _ => 0

/-- Fuel potential for the `has_tensor` scan: total size (1 + child count)
of the heap entries whose id is not yet memoized in `seen`. -/
def phi (heap : List (Nat × ObjKind)) (seen : List (Nat × Bool)) : Nat :=
  match heap with
  | [] => 0
  | (k, kd) :: rest =>
    (if (alistFind seen k).isNone then 1 + childCount kd else 0) + phi rest seen

/-- Attach the parent's memoized result after its children were scanned:
`seen_ids[obj_id] = any([...])` followed by `return seen_ids[obj_id]`
(convert_frame.py:148-165). -/
def mapChildRes (x : Nat) :
    Option (Bool × List (Nat × Bool)) → Option (Bool × List (Nat × Bool))
  | none => none
  | some (b, seen) => some (b, (x, b) :: seen)

mutual

/-- `has_tensor(obj)` (convert_frame.py:137-171): recursively check whether
the object graph rooted at `x` contains a tensor.  `seen` is the enclosing
`seen_ids` dict: a hit returns the memoized value immediately
(lines 140-141); on a miss the id is pre-marked `False` (line 142) before
the children are visited, which is what makes cycles terminate. -/
def hasTensorF (heap : List (Nat × ObjKind)) :
    Nat → List (Nat × Bool) → Nat → Option (Bool × List (Nat × Bool))
  | 0, _, _ => none
  | fuel + 1, seen, x =>
    match alistFind seen x with
    | some b => some (b, seen)
    | none =>
      let seen1 := (x, false) :: seen
      match (alistFind heap x).getD ObjKind.otherObj with
      | ObjKind.tensorOrModule => some (true, (x, true) :: seen1)
      | ObjKind.listOrTuple cs => mapChildRes x (hasTensorChildren heap fuel seen1 cs)
      | ObjKind.dictObj cs => mapChildRes x (hasTensorChildren heap fuel seen1 cs)
      | ObjKind.primitive => some (false, (x, false) :: seen1)
      | ObjKind.namedtupleObj cs => mapChildRes x (hasTensorChildren heap fuel seen1 cs)
      | ObjKind.objectDict cs => mapChildRes x (hasTensorChildren heap fuel seen1 cs)
      | ObjKind.otherObj => some (false, seen1)

/-- The `any([has_tensor(v) for v in ...])` pattern: the list comprehension
evaluates `has_tensor` on every child left to right, threading the mutations
of `seen_ids`, and `any` ors the results. -/
def hasTensorChildren (heap : List (Nat × ObjKind)) :
    Nat → List (Nat × Bool) → List Nat → Option (Bool × List (Nat × Bool))
  | _, seen, [] => some (false, seen)
  | 0, _, _ :: _ => none
  | fuel + 1, seen, c :: rest =>
    match hasTensorF heap fuel seen c with
    | none => none
    | some (b, seen2) =>
      match hasTensorChildren heap fuel seen2 rest with
      | none => none
      | some (b2, seen3) => some (b || b2, seen3)

end

/-- Fuel sufficient for any `has_tensor` scan over `heap` starting from an
empty `seen_ids` dict (proved below). -/
def hasTensorFuel (heap : List (Nat × ObjKind)) : Nat :=
  1 + phi heap []

/-- `for value in frame.f_locals.values(): if has_tensor(value): return True`
(convert_frame.py:174-176); `seen_ids` persists across the locals. -/
def scanLocals (heap : List (Nat × ObjKind)) (fuel : Nat) :
    List (Nat × Bool) → List Nat → Option Bool
  | _, [] => some false
  | seen, v :: rest =>
    match hasTensorF heap fuel seen v with
    | none => none
    | some (true, _) => some true
    | some (false, seen2) => scanLocals heap fuel seen2 rest

/-- The `CodeUnit` data visible to `_convert_frame_assert`: identity of the
code object plus the attributes the classifier reads.  `is_gen` is the
result of `is_generator(code)` (a flag test on `co_flags` in the external
module `bytecode_transformation.py`). -/
structure Code where
  id : Nat
  co_name : String
  co_filename : String
  is_gen : Bool
deriving DecidableEq, Repr

/-- The captured frame data read by `_convert_frame_assert` and
`has_tensor_in_frame`.  `always_optimize` is `frame.f_code in
always_optimize_code_objects` (eval_frame.py:126); `global_import_allowed`
is whether the `co_names`/`f_globals`/`is_allowed` loop of
convert_frame.py:130-133 finds an allowed global; `f_locals` are the ids of
`frame.f_locals.values()`. -/
structure Frame where
  code : Code
  f_builtins_empty : Bool
  always_optimize : Bool
  global_import_allowed : Bool
  f_locals : List Nat
deriving DecidableEq, Repr

/-- `has_tensor_in_frame(frame)` (convert_frame.py:123-183). -/
def has_tensor_in_frame (heap : List (Nat × ObjKind)) (frame : Frame) : Bool :=
  if frame.always_optimize then true
  else if frame.global_import_allowed then true
  else (scanLocals heap (hasTensorFuel heap) [] frame.f_locals).getD false

/-- The `Tracker` class (convert_frame.py:48-65).  Only the identity set
`seen_ids` matters for `__contains__`; the weak-reference based removal of
garbage-collected entries is a memory-management effect outside the
embedding. -/
structure Tracker where
  seen_ids : List Nat
deriving DecidableEq, Repr

/-- `Tracker.__contains__` (convert_frame.py:60-61). -/
def Tracker.mem (t : Tracker) (i : Nat) : Bool :=
  t.seen_ids.contains i

/-- `Tracker.add` (convert_frame.py:53-58). -/
def Tracker.add (t : Tracker) (i : Nat) : Tracker :=
  if t.mem i then t else { seen_ids := i :: t.seen_ids }

/-- `Tracker.clear` (convert_frame.py:63-65). -/
def Tracker.clear (_ : Tracker) : Tracker :=
  { seen_ids := [] }

/-- Structured log events recorded by `_convert_frame_assert`; the
constructor names carry the log level used in the source. -/
inductive LogEvent where
  /-- `log.warning("torchdynamo hit config.cache_size_limit ...")`
  (convert_frame.py:274-279), carrying the limit, the function name and the
  most recent guard-failure reason `guard_failures[code][-1]`. -/
  | cacheLimitWarning (limit : Nat) (func : String) (reason : String)
  /-- `log.debug("skipping because no torch.* ...")` (convert_frame.py:178). -/
  | skipNoTensorDebug (func : String)
  /-- `log.debug("Skipping frame ...")` (convert_frame.py:321). -/
  | skipFrameDebug (func : String)
  /-- `log.error(format_error_msg(e, frame))` (convert_frame.py:357,360). -/
  | convertErrorLogged
deriving DecidableEq, Repr

/-- The process-wide mutable state touched by `_convert_frame_assert`: the
`input_codes` and `output_codes` trackers (convert_frame.py:68-69) and the
log. -/
structure ConvState where
  input_codes : Tracker
  output_codes : Tracker
  log : List LogEvent
deriving DecidableEq, Repr

/-- The environment of one `_convert_frame_assert` call: configuration,
the `TORCHDYNAMO_DEBUG_FUNCTION` environment variable, the `guard_failures`
map (code id to the list of recorded failure reasons), the object heap
backing `has_tensor_in_frame`, and oracles for the external collaborators:
`outcomes n` is what `transform_code_object` does on attempt `n`, and
`post` is the outcome of the guard-construction steps after a successful
transform (convert_frame.py:330-349), `none` meaning they succeed. -/
structure ConvertEnv where
  debug_function : Option String
  cache_size_limit : Nat
  guard_failures : List (Nat × List String)
  heap : List (Nat × ObjKind)
  outcomes : Nat → TransformOutcome
  post : Option TracerExc

/-- The truthiness test `os.environ.get("TORCHDYNAMO_DEBUG_FUNCTION") and
os.environ.get("TORCHDYNAMO_DEBUG_FUNCTION") != code.co_name`
(convert_frame.py:232-235): an unset or empty variable is falsy. -/
def debugFunctionMismatch : Option String → String → Bool
  | none, _ => false
  | some s, nm => !(s == "") && !(s == nm)

/-- Result of the `for attempt in itertools.count():` retry loop
(convert_frame.py:311-327): a successfully transformed code object,
a `SkipFrame` return, or an exception escaping the loop. -/
inductive TransformLoopResult where
  | success (newCode : Nat)
  | skipped
  | raised (e : TracerExc)
deriving DecidableEq, Repr

/-- The retry loop (convert_frame.py:311-327): run `transform_code_object`;
on `RestartAnalysis` retry from the beginning unless `attempt > 100`, in
which case `unimplemented("100+ RestartAnalysis() calls")`; on `SkipFrame`
return `None`; any other exception escapes to the surrounding `try`. -/
def transformLoop (outcomes : Nat → TransformOutcome) (attempt : Nat) :
    TransformLoopResult :=
  match outcomes attempt with
  | TransformOutcome.success c => TransformLoopResult.success c
  | TransformOutcome.skipFrame => TransformLoopResult.skipped
  | TransformOutcome.raised e => TransformLoopResult.raised e
  | TransformOutcome.restartAnalysis =>
    if h : 100 < attempt then
      TransformLoopResult.raised (unimplemented "100+ RestartAnalysis() calls")
    else
      transformLoop outcomes (attempt + 1)
termination_by 101 - attempt
decreasing_by omega

/-- The `except` clauses wrapping the `try` block of convert_frame.py:310-361:
`Unsupported`, `TorchRuntimeError`, `BackendCompilerFailed` and
`AssertionError` are logged and re-raised unchanged; every other exception
is logged and re-raised as `InternalTorchDynamoError`. -/
def dispatchExc : TracerExc → TracerExc
  | TracerExc.unsupported m => TracerExc.unsupported m
  | TracerExc.torchRuntimeError => TracerExc.torchRuntimeError
  | TracerExc.backendCompilerFailed => TracerExc.backendCompilerFailed
  | TracerExc.assertionError => TracerExc.assertionError
  | TracerExc.internalError => TracerExc.internalError
  | TracerExc.other _ => TracerExc.internalError

/-- `_convert_frame_assert(frame, cache_size)` (convert_frame.py:227-361).
Returns the `GuardedCode` result (`some` new code id), `none` for a skipped
frame, or the escaping exception, together with the updated trackers and
log.  The `counters`/`orig_code_map`/`CleanupManager` bookkeeping and the
`dynamo_timed` decorator are not modelled; the guard-construction steps
after a successful transform are summarized by the `env.post` oracle. -/
def _convert_frame_assert (env : ConvertEnv) (st : ConvState) (frame : Frame)
    (cache_size : Nat) : Except TracerExc (Option Nat) × ConvState :=
  let code := frame.code
  let st1 : ConvState := { st with input_codes := st.input_codes.add code.id }
  if st1.output_codes.mem code.id then
    (Except.ok none, st1)
  else if debugFunctionMismatch env.debug_function code.co_name then
    (Except.ok none, st1)
  else if code.co_name == "<genexpr>" &&
      (code.co_filename.endsWith "transformers/file_utils.py" ||
       code.co_filename.endsWith "transformers/utils/generic.py") then
    (Except.ok none, st1)
  else if code.co_name == "__setattr__" then
    (Except.ok none, st1)
  else if code.co_name == "<module>" && code.co_filename == "<string>" then
    (Except.ok none, st1)
  else if code.co_name == "<lambda>" && code.co_filename == "<string>" &&
      frame.f_builtins_empty then
    (Except.ok none, st1)
  else if code.is_gen then
    (Except.error (unimplemented "generator"), st1)
  else if env.cache_size_limit ≤ cache_size then
    match alistFind env.guard_failures code.id with
    | none => (Except.error TracerExc.assertionError, st1)
    | some reasons =>
      match reasons.getLast? with
      | none => (Except.error (TracerExc.other 0), st1)
      | some reason =>
        (Except.error (unimplemented "cache_size_limit reached"),
         { st1 with
            log := LogEvent.cacheLimitWarning env.cache_size_limit
              code.co_name reason :: st1.log })
  else if !(has_tensor_in_frame env.heap frame) then
    (Except.ok none,
     { st1 with log := LogEvent.skipNoTensorDebug code.co_name :: st1.log })
  else
    match transformLoop env.outcomes 0 with
    | TransformLoopResult.skipped =>
      (Except.ok none,
       { st1 with log := LogEvent.skipFrameDebug code.co_name :: st1.log })
    | TransformLoopResult.raised e =>
      (Except.error (dispatchExc e),
       { st1 with log := LogEvent.convertErrorLogged :: st1.log })
    | TransformLoopResult.success newCode =>
      let st2 : ConvState :=
        { st1 with output_codes := st1.output_codes.add newCode }
      match env.post with
      | none => (Except.ok (some newCode), st2)
      | some e =>
        (Except.error (dispatchExc e),
         { st2 with log := LogEvent.convertErrorLogged :: st2.log })

/-- `_convert_frame(frame, cache_size)` (convert_frame.py:371-384): the
error-catching wrapper around `_convert_frame_assert`.  An `AssertionError`
is re-raised only when `config.raise_on_assertion_error` is set;
`BackendCompilerFailed` is always re-raised; every other exception is
swallowed and `None` is returned. -/
def _convert_frame (raise_on_assertion_error : Bool) (env : ConvertEnv)
    (st : ConvState) (frame : Frame) (cache_size : Nat) :
    Except TracerExc (Option Nat) × ConvState :=
  match _convert_frame_assert env st frame cache_size with
  | (Except.ok r, st2) => (Except.ok r, st2)
  | (Except.error TracerExc.assertionError, st2) =>
    if raise_on_assertion_error then (Except.error TracerExc.assertionError, st2)
    else (Except.ok none, st2)
  | (Except.error TracerExc.backendCompilerFailed, st2) =>
    (Except.error TracerExc.backendCompilerFailed, st2)
  | (Except.error _, st2) => (Except.ok none, st2)

/-- The global interpreter state captured and restored by
`wrap_convert_context` (convert_frame.py:93-119): `torch.is_grad_enabled()`,
the CPU RNG state, the CUDA RNG state, and the monkeypatched
`torch.fx.graph_module._forward_from_src` hook (identified by the id of the
installed function object).  `extra` stands for any other global state the
wrapped function may mutate, which the wrapper does not restore. -/
structure GlobalState where
  grad_mode : Bool
  rng_state : Nat
  cuda_rng_state : Nat
  fwd_from_src : Nat
  extra : Nat
deriving DecidableEq, Repr

/-- The id of `fx_forward_from_src_skip_result` (convert_frame.py:72-78),
the override installed for `torch.fx.graph_module._forward_from_src`. -/
def fxForwardFromSrcSkipResultId : Nat := 1

/-- `wrap_convert_context(fn)` applied to one call (convert_frame.py:101-116):
capture the prior grad mode, RNG states and `_forward_from_src`, install the
override, run `fn`, and restore everything in the `finally` block whether
`fn` returned or raised (both cases live in the `Except` value `r`). -/
def wrap_convert_context {E A : Type} (cuda_available : Bool)
    (fn : GlobalState → Except E A × GlobalState) (s : GlobalState) :
    Except E A × GlobalState :=
  let prior_grad_mode := s.grad_mode
  let rng_state := s.rng_state
  let cuda_rng_state := s.cuda_rng_state
  let prior_fwd_from_src := s.fwd_from_src
  let run := fn { s with fwd_from_src := fxForwardFromSrcSkipResultId }
  (run.1,
   { run.2 with
      grad_mode := prior_grad_mode,
      rng_state := rng_state,
      cuda_rng_state :=
        if cuda_available then cuda_rng_state else run.2.cuda_rng_state,
      fwd_from_src := prior_fwd_from_src })

/-- Result of `WrapperBackend.__call__` (eval_frame.py:171-201): the
callable handed back to the caller, or the exception raised. -/
inductive BackendCallResult where
  /-- a callable was returned (identified by its id) -/
  | callable (c : Nat)
  /-- `raise RuntimeError(f"incorrect results of backend {self}")` -/
  | raisedRuntimeError (msg : String)
  /-- an exception from running the original or candidate callable was
  logged (`log.exception`) and re-raised -/
  | raisedOther (e : Nat)
deriving DecidableEq, Repr

/-- `WrapperBackend.__call__(gm, example_inputs)` (eval_frame.py:171-201).
`gm_forward` is the id of `self.gm.forward`; `backend_result` is what
`self.backend(copy.deepcopy(gm), inputs)` returned (`none` for `None`);
`correct_run`/`result_run` are the outcomes of running `self.gm.forward`
and the candidate on cloned example inputs (value or raised exception);
`same` is the `same(correct, result)` comparison.  The
`checkpoint_params`/`restore()` parameter snapshotting and the input
cloning are identity-level effects not modelled. -/
def wrapperBackendCall (verify_correctness : Bool) (gm_forward : Nat)
    (backend_result : Option Nat) (correct_run result_run : Except Nat Nat)
    (same : Nat → Nat → Bool) : BackendCallResult :=
  match backend_result with
  | none => BackendCallResult.callable gm_forward
  | some candidate =>
    if candidate = gm_forward then BackendCallResult.callable gm_forward
    else if !verify_correctness then BackendCallResult.callable candidate
    else
      match correct_run with
      | Except.error e => BackendCallResult.raisedOther e
      | Except.ok correct =>
        match result_run with
        | Except.error e => BackendCallResult.raisedOther e
        | Except.ok result =>
          if same correct result then BackendCallResult.callable candidate
          else BackendCallResult.raisedRuntimeError "incorrect results of backend"

/-- `wrap_compiler_fn(compiler_fn)` (convert_frame.py:81-90): wrap the
backend in a `WrapperBackend` exactly when `config.verify_correctness` is
set (`true` = wrapped). -/
def wrap_compiler_fn (verify_correctness : Bool) : Bool :=
  verify_correctness

/-- The disjunction of the silent early-skip rules of
`_convert_frame_assert` (convert_frame.py:230-259): each disjunct is
literally the corresponding `if` condition returning `None`.  A helper for
stating the classifier theorems. -/
def earlySkip (output_codes : Tracker) (env : ConvertEnv) (frame : Frame) : Bool :=
  output_codes.mem frame.code.id ||
  debugFunctionMismatch env.debug_function frame.code.co_name ||
  (frame.code.co_name == "<genexpr>" &&
    (frame.code.co_filename.endsWith "transformers/file_utils.py" ||
     frame.code.co_filename.endsWith "transformers/utils/generic.py")) ||
  frame.code.co_name == "__setattr__" ||
  (frame.code.co_name == "<module>" && frame.code.co_filename == "<string>") ||
  (frame.code.co_name == "<lambda>" && frame.code.co_filename == "<string>" &&
    frame.f_builtins_empty)

/-- An empty process state: fresh trackers, empty log. -/
def emptyConvState : ConvState :=
  { input_codes := { seen_ids := [] },
    output_codes := { seen_ids := [] },
    log := [] }

/-- An ordinary (non-generator) code object used in concrete instances. -/
def plainCode : Code :=
  { id := 7, co_name := "f", co_filename := "m.py", is_gen := false }

/-- A generator code object used in concrete instances. -/
def genCode : Code :=
  { id := 8, co_name := "g", co_filename := "m.py", is_gen := true }

/-- A frame over `plainCode` whose single local (id 1) is a tensor in
`tensorHeap`. -/
def tensorFrame : Frame :=
  { code := plainCode, f_builtins_empty := false, always_optimize := false,
    global_import_allowed := false, f_locals := [1] }

/-- A generator frame with no tensor anywhere in its locals. -/
def genFrameNoTensor : Frame :=
  { code := genCode, f_builtins_empty := false, always_optimize := false,
    global_import_allowed := false, f_locals := [2] }

/-- A heap with a single tensor object (id 1) and a primitive (id 2). -/
def tensorHeap : List (Nat × ObjKind) :=
  [(1, ObjKind.tensorOrModule), (2, ObjKind.primitive)]

/-- A convert environment whose transform oracle always behaves as
`outcome`, with guard construction succeeding. -/
def mkEnv (outcome : TransformOutcome) : ConvertEnv :=
  { debug_function := none, cache_size_limit := 64, guard_failures := [],
    heap := tensorHeap, outcomes := fun _ => outcome, post := none }

/-- The self-referential one-object heap: object 0 is a list whose only
element is itself. -/
def cycleHeap : List (Nat × ObjKind) :=
  [(0, ObjKind.listOrTuple [0])]

deriving instance DecidableEq for Except


theorem Tracker.mem_add_self (t : Tracker) (i : Nat) : (t.add i).mem i = true := by
  unfold Tracker.add
  split
  · assumption
  · simp [Tracker.mem]

theorem Tracker.mem_add_of_mem (t : Tracker) (i j : Nat) (h : t.mem j = true) :
    (t.add i).mem j = true := by
  unfold Tracker.add
  split
  · exact h
  · simp only [Tracker.mem] at h ⊢
    simp only [List.contains_cons]
    simp at h ⊢
    exact Or.inr h

/-- One `RestartAnalysis` with the ceiling not yet exceeded retries the whole
transformation from the beginning (the `continue` of the `for attempt` loop). -/
theorem transformLoop_retry (outcomes : Nat → TransformOutcome) (a : Nat)
    (h : outcomes a = TransformOutcome.restartAnalysis) (ha : a ≤ 100) :
    transformLoop outcomes a = transformLoop outcomes (a + 1) := by
  conv_lhs => rw [transformLoop]
  rw [h]
  rw [dif_neg (by omega)]

/-- Once the attempt counter exceeds 100, a further `RestartAnalysis` raises
`Unsupported` instead of retrying. -/
theorem transformLoop_ceiling (outcomes : Nat → TransformOutcome) (a : Nat)
    (h : outcomes a = TransformOutcome.restartAnalysis) (ha : 100 < a) :
    transformLoop outcomes a =
      TransformLoopResult.raised (unimplemented "100+ RestartAnalysis() calls") := by
  conv_lhs => rw [transformLoop]
  rw [h]
  rw [dif_pos ha]

/-- Unfolding lemma for `transformLoop` with the decidable `if` in plain form. -/
theorem transformLoop_other (outcomes : Nat → TransformOutcome) (a : Nat) :
    transformLoop outcomes a =
      match outcomes a with
      | TransformOutcome.success c => TransformLoopResult.success c
      | TransformOutcome.skipFrame => TransformLoopResult.skipped
      | TransformOutcome.raised e => TransformLoopResult.raised e
      | TransformOutcome.restartAnalysis =>
        if 100 < a then
          TransformLoopResult.raised (unimplemented "100+ RestartAnalysis() calls")
        else transformLoop outcomes (a + 1) := by
  conv_lhs => rw [transformLoop]
  cases outcomes a with
  | restartAnalysis =>
    by_cases hc : 100 < a
    · rw [dif_pos hc, if_pos hc]
    · rw [dif_neg hc, if_neg hc]
  | success c => rfl
  | skipFrame => rfl
  | raised e => rfl

theorem transformLoop_congr_aux :
    ∀ (n a : Nat) (outcomes outcomes' : Nat → TransformOutcome),
      101 - a ≤ n → a ≤ 101 →
      (∀ k, a ≤ k → k ≤ 101 → outcomes k = outcomes' k) →
      transformLoop outcomes a = transformLoop outcomes' a := by
  intro n
  induction n with
  | zero =>
    intro a o o' h1 h2 hag
    have ha : a = 101 := by omega
    subst ha
    rw [transformLoop_other o, transformLoop_other o', hag 101 (by omega) (by omega)]
    cases o' 101 with
    | restartAnalysis => rw [if_pos (by omega), if_pos (by omega)]
    | success c => rfl
    | skipFrame => rfl
    | raised e => rfl
  | succ n ih =>
    intro a o o' h1 h2 hag
    rw [transformLoop_other o, transformLoop_other o', hag a (by omega) h2]
    cases ho : o' a with
    | restartAnalysis =>
      by_cases hc : 100 < a
      · rw [if_pos hc, if_pos hc]
      · rw [if_neg hc, if_neg hc]
        exact ih (a + 1) o o' (by omega) (by omega)
          (fun k hk1 hk2 => hag k (by omega) hk2)
    | success c => rfl
    | skipFrame => rfl
    | raised e => rfl

theorem transformLoop_allRestart_aux :
    ∀ (n a : Nat) (outcomes : Nat → TransformOutcome),
      101 - a ≤ n → a ≤ 101 →
      (∀ k, outcomes k = TransformOutcome.restartAnalysis) →
      transformLoop outcomes a =
        TransformLoopResult.raised (unimplemented "100+ RestartAnalysis() calls") := by
  intro n
  induction n with
  | zero =>
    intro a o h1 h2 hall
    have ha : a = 101 := by omega
    subst ha
    exact transformLoop_ceiling o 101 (hall 101) (by omega)
  | succ n ih =>
    intro a o h1 h2 hall
    by_cases hc : 100 < a
    · exact transformLoop_ceiling o a (hall a) hc
    · rw [transformLoop_retry o a (hall a) (by omega)]
      exact ih (a + 1) o (by omega) (by omega) hall

theorem convert_assert_generator (env : ConvertEnv) (st : ConvState) (frame : Frame)
    (cache_size : Nat) (h : earlySkip st.output_codes env frame = false)
    (hg : frame.code.is_gen = true) :
    _convert_frame_assert env st frame cache_size =
      (Except.error (unimplemented "generator"),
       { st with input_codes := st.input_codes.add frame.code.id }) := by
  simp [earlySkip] at h
  obtain ⟨⟨⟨⟨⟨h1, h2⟩, h3⟩, h4⟩, h5⟩, h6⟩ := h
  simp [_convert_frame_assert, hg, h1, h2, h3, h4, h5, h6]
  split_ifs with hA hB hC <;> simp_all

theorem convert_assert_cache_limit (env : ConvertEnv) (st : ConvState) (frame : Frame)
    (cache_size : Nat) (h : earlySkip st.output_codes env frame = false)
    (hg : frame.code.is_gen = false)
    (hcs : env.cache_size_limit ≤ cache_size)
    (l : List String) (r : String)
    (hfind : alistFind env.guard_failures frame.code.id = some l)
    (hlast : l.getLast? = some r) :
    _convert_frame_assert env st frame cache_size =
      (Except.error (unimplemented "cache_size_limit reached"),
       { st with input_codes := st.input_codes.add frame.code.id,
                 log := LogEvent.cacheLimitWarning env.cache_size_limit
                   frame.code.co_name r :: st.log }) := by
  simp [earlySkip] at h
  obtain ⟨⟨⟨⟨⟨h1, h2⟩, h3⟩, h4⟩, h5⟩, h6⟩ := h
  simp [_convert_frame_assert, hg, h1, h2, h3, h4, h5, h6, hcs, hfind, hlast]
  split_ifs with hA hB hC <;> simp_all

theorem convert_assert_tracing (env : ConvertEnv) (st : ConvState) (frame : Frame)
    (cache_size : Nat) (h : earlySkip st.output_codes env frame = false)
    (hg : frame.code.is_gen = false)
    (hcs : cache_size < env.cache_size_limit)
    (ht : has_tensor_in_frame env.heap frame = true) :
    _convert_frame_assert env st frame cache_size =
      (let st1 : ConvState := { st with input_codes := st.input_codes.add frame.code.id }
       match transformLoop env.outcomes 0 with
       | TransformLoopResult.skipped =>
         (Except.ok none,
          { st1 with log := LogEvent.skipFrameDebug frame.code.co_name :: st1.log })
       | TransformLoopResult.raised e =>
         (Except.error (dispatchExc e),
          { st1 with log := LogEvent.convertErrorLogged :: st1.log })
       | TransformLoopResult.success newCode =>
         let st2 : ConvState :=
           { st1 with output_codes := st1.output_codes.add newCode }
         match env.post with
         | none => (Except.ok (some newCode), st2)
         | some e =>
           (Except.error (dispatchExc e),
            { st2 with log := LogEvent.convertErrorLogged :: st2.log })) := by
  simp [earlySkip] at h
  obtain ⟨⟨⟨⟨⟨h1, h2⟩, h3⟩, h4⟩, h5⟩, h6⟩ := h
  simp [_convert_frame_assert, hg, h1, h2, h3, h4, h5, h6, Nat.not_le.mpr hcs, ht]
  split_ifs with hA hB hC <;> simp_all

theorem convert_assert_no_new_entry (env : ConvertEnv) (st : ConvState) (frame : Frame)
    (cache_size : Nat) (hcs : env.cache_size_limit ≤ cache_size) :
    ∀ c, (_convert_frame_assert env st frame cache_size).1 ≠ Except.ok (some c) := by
  intro c
  simp only [_convert_frame_assert]
  split_ifs <;> try simp
  split <;> try simp
  split <;> simp

theorem convert_assert_early (env : ConvertEnv) (st : ConvState) (frame : Frame)
    (cache_size : Nat) (h : earlySkip st.output_codes env frame = true) :
    _convert_frame_assert env st frame cache_size =
      (Except.ok none,
       { st with input_codes := st.input_codes.add frame.code.id }) := by
  simp only [earlySkip, Bool.or_eq_true] at h
  simp only [_convert_frame_assert]
  by_cases h1 : st.output_codes.mem frame.code.id = true
  · rw [if_pos h1]
  · rw [if_neg h1]
    by_cases h2 : debugFunctionMismatch env.debug_function frame.code.co_name = true
    · rw [if_pos h2]
    · rw [if_neg h2]
      by_cases h3 : (frame.code.co_name == "<genexpr>" &&
          (frame.code.co_filename.endsWith "transformers/file_utils.py" ||
           frame.code.co_filename.endsWith "transformers/utils/generic.py")) = true
      · rw [if_pos h3]
      · rw [if_neg h3]
        by_cases h4 : (frame.code.co_name == "__setattr__") = true
        · rw [if_pos h4]
        · rw [if_neg h4]
          by_cases h5 : (frame.code.co_name == "<module>" &&
              frame.code.co_filename == "<string>") = true
          · rw [if_pos h5]
          · rw [if_neg h5]
            by_cases h6 : (frame.code.co_name == "<lambda>" &&
                frame.code.co_filename == "<string>" && frame.f_builtins_empty) = true
            · rw [if_pos h6]
            · exfalso
              tauto

theorem convert_assert_no_tensor (env : ConvertEnv) (st : ConvState) (frame : Frame)
    (cache_size : Nat) (h : earlySkip st.output_codes env frame = false)
    (hg : frame.code.is_gen = false)
    (hcs : cache_size < env.cache_size_limit)
    (ht : has_tensor_in_frame env.heap frame = false) :
    _convert_frame_assert env st frame cache_size =
      (Except.ok none,
       { st with input_codes := st.input_codes.add frame.code.id,
                 log := LogEvent.skipNoTensorDebug frame.code.co_name :: st.log }) := by
  simp [earlySkip] at h
  obtain ⟨⟨⟨⟨⟨h1, h2⟩, h3⟩, h4⟩, h5⟩, h6⟩ := h
  simp [_convert_frame_assert, hg, h1, h2, h3, h4, h5, h6, Nat.not_le.mpr hcs, ht]
  split_ifs with hA hB hC <;> simp_all

theorem convert_assert_records_output (env : ConvertEnv) (st : ConvState) (frame : Frame)
    (cache_size : Nat) :
    ∀ c, (_convert_frame_assert env st frame cache_size).1 = Except.ok (some c) →
      ((_convert_frame_assert env st frame cache_size).2).output_codes.mem c = true := by
  intro c hc
  by_cases hES : earlySkip st.output_codes env frame = true
  · rw [convert_assert_early env st frame cache_size hES] at hc
    simp at hc
  · have hES' : earlySkip st.output_codes env frame = false :=
      Bool.eq_false_iff.mpr hES
    by_cases hg : frame.code.is_gen = true
    · rw [convert_assert_generator env st frame cache_size hES' hg] at hc
      simp at hc
    · have hg' : frame.code.is_gen = false := Bool.eq_false_iff.mpr hg
      by_cases hcs : env.cache_size_limit ≤ cache_size
      · exact absurd hc (convert_assert_no_new_entry env st frame cache_size hcs c)
      · by_cases ht : has_tensor_in_frame env.heap frame = true
        · rw [convert_assert_tracing env st frame cache_size hES' hg'
            (by omega) ht] at hc ⊢
          cases hL : transformLoop env.outcomes 0 with
          | success newCode =>
            simp only [hL] at hc ⊢
            cases hP : env.post with
            | none =>
              simp only [hP] at hc ⊢
              simp at hc ⊢
              subst hc
              exact Tracker.mem_add_self _ _
            | some e =>
              simp only [hP] at hc
              simp at hc
          | skipped =>
            simp only [hL] at hc
            simp at hc
          | raised e =>
            simp only [hL] at hc
            simp at hc
        · have ht' : has_tensor_in_frame env.heap frame = false :=
            Bool.eq_false_iff.mpr ht
          rw [convert_assert_no_tensor env st frame cache_size hES' hg'
            (by omega) ht'] at hc
          simp at hc

theorem alistFind_isSome_of_suffix {α : Type} (seen seen' : List (Nat × α)) (k : Nat)
    (hsub : seen <:+ seen') (h : (alistFind seen k).isSome = true) :
    (alistFind seen' k).isSome = true := by
  obtain ⟨t, ht⟩ := hsub
  subst ht
  induction t with
  | nil => exact h
  | cons p rest ih =>
    obtain ⟨a, v⟩ := p
    rw [List.cons_append, alistFind]
    split
    · simp
    · exact ih

theorem phi_anti (heap : List (Nat × ObjKind)) (seen seen' : List (Nat × Bool))
    (h : ∀ k, (alistFind seen k).isSome = true → (alistFind seen' k).isSome = true) :
    phi heap seen' ≤ phi heap seen := by
  induction heap with
  | nil => simp [phi]
  | cons p rest ih =>
    obtain ⟨a, kd⟩ := p
    rw [phi, phi]
    have hstep : (if (alistFind seen' a).isNone = true then 1 + childCount kd else 0) ≤
        (if (alistFind seen a).isNone = true then 1 + childCount kd else 0) := by
      by_cases hs : (alistFind seen a).isNone = true
      · rw [if_pos hs]
        split <;> omega
      · rw [if_neg hs]
        have hsome : (alistFind seen a).isSome = true := by
          cases hv : alistFind seen a
          · rw [hv] at hs; simp at hs
          · simp
        have h2 := h a hsome
        have h3 : ¬ (alistFind seen' a).isNone = true := by
          cases hv : alistFind seen' a
          · rw [hv] at h2; simp at h2
          · simp
        rw [if_neg h3]
    omega

theorem phi_cons_le (heap : List (Nat × ObjKind)) (seen : List (Nat × Bool))
    (x : Nat) (b : Bool) :
    phi heap ((x, b) :: seen) ≤ phi heap seen := by
  apply phi_anti
  intro k hk
  rw [alistFind]
  split
  · simp
  · exact hk

theorem phi_found (heap : List (Nat × ObjKind)) (seen : List (Nat × Bool))
    (x : Nat) (kd : ObjKind) (b : Bool)
    (hmiss : alistFind seen x = none) (hfound : alistFind heap x = some kd) :
    1 + childCount kd + phi heap ((x, b) :: seen) ≤ phi heap seen := by
  induction heap with
  | nil => simp [alistFind] at hfound
  | cons p rest ih =>
    obtain ⟨a, kd0⟩ := p
    rw [phi, phi]
    rw [alistFind] at hfound
    by_cases hax : x = a
    · rw [if_pos hax] at hfound
      cases hfound
      subst hax
      have hx : alistFind ((x, b) :: seen) x = some b := by
        rw [alistFind, if_pos rfl]
      rw [if_neg (by rw [hx]; simp)]
      rw [if_pos (by rw [hmiss]; rfl)]
      have := phi_cons_le rest seen x b
      omega
    · rw [if_neg hax] at hfound
      have hrec := ih hfound
      have hsame : alistFind ((x, b) :: seen) a = alistFind seen a := by
        rw [alistFind, if_neg (fun hh => hax hh.symm)]
      rw [hsame]
      omega

theorem hasTensor_suffix (heap : List (Nat × ObjKind)) :
    ∀ fuel : Nat,
      (∀ seen x r, hasTensorF heap fuel seen x = some r → seen <:+ r.2) ∧
      (∀ seen cs r, hasTensorChildren heap fuel seen cs = some r → seen <:+ r.2) := by
  intro fuel
  induction fuel with
  | zero =>
    constructor
    · intro seen x r h
      simp [hasTensorF] at h
    · intro seen cs r h
      cases cs with
      | nil =>
        rw [hasTensorChildren] at h
        cases h
        exact List.suffix_rfl
      | cons c rest =>
        simp [hasTensorChildren] at h
  | succ f ih =>
    obtain ⟨ihF, ihC⟩ := ih
    have hF : ∀ seen x r, hasTensorF heap (f + 1) seen x = some r → seen <:+ r.2 := by
      intro seen x r h
      rw [hasTensorF] at h
      cases hfind : alistFind seen x with
      | some b =>
        rw [hfind] at h
        cases h
        exact List.suffix_rfl
      | none =>
        rw [hfind] at h
        simp only at h
        cases hkind : (alistFind heap x).getD ObjKind.otherObj with
        | tensorOrModule =>
          rw [hkind] at h
          cases h
          exact (List.suffix_cons _ _).trans (List.suffix_cons _ _)
        | primitive =>
          rw [hkind] at h
          cases h
          exact (List.suffix_cons _ _).trans (List.suffix_cons _ _)
        | otherObj =>
          rw [hkind] at h
          cases h
          exact List.suffix_cons _ _
        | listOrTuple cs =>
          rw [hkind] at h
          simp only [] at h
          cases hc : hasTensorChildren heap f ((x, false) :: seen) cs with
          | none => rw [hc] at h; simp [mapChildRes] at h
          | some rr =>
            obtain ⟨b2, s2⟩ := rr
            rw [hc] at h
            simp only [mapChildRes] at h
            cases h
            exact ((List.suffix_cons _ _).trans (ihC _ _ _ hc)).trans
              (List.suffix_cons _ _)
        | dictObj cs =>
          rw [hkind] at h
          simp only [] at h
          cases hc : hasTensorChildren heap f ((x, false) :: seen) cs with
          | none => rw [hc] at h; simp [mapChildRes] at h
          | some rr =>
            obtain ⟨b2, s2⟩ := rr
            rw [hc] at h
            simp only [mapChildRes] at h
            cases h
            exact ((List.suffix_cons _ _).trans (ihC _ _ _ hc)).trans
              (List.suffix_cons _ _)
        | namedtupleObj cs =>
          rw [hkind] at h
          simp only [] at h
          cases hc : hasTensorChildren heap f ((x, false) :: seen) cs with
          | none => rw [hc] at h; simp [mapChildRes] at h
          | some rr =>
            obtain ⟨b2, s2⟩ := rr
            rw [hc] at h
            simp only [mapChildRes] at h
            cases h
            exact ((List.suffix_cons _ _).trans (ihC _ _ _ hc)).trans
              (List.suffix_cons _ _)
        | objectDict cs =>
          rw [hkind] at h
          simp only [] at h
          cases hc : hasTensorChildren heap f ((x, false) :: seen) cs with
          | none => rw [hc] at h; simp [mapChildRes] at h
          | some rr =>
            obtain ⟨b2, s2⟩ := rr
            rw [hc] at h
            simp only [mapChildRes] at h
            cases h
            exact ((List.suffix_cons _ _).trans (ihC _ _ _ hc)).trans
              (List.suffix_cons _ _)
    have hC : ∀ seen cs r, hasTensorChildren heap (f + 1) seen cs = some r →
        seen <:+ r.2 := by
      intro seen cs r h
      cases cs with
      | nil =>
        rw [hasTensorChildren] at h
        cases h
        exact List.suffix_rfl
      | cons c rest =>
        rw [hasTensorChildren] at h
        cases hc1 : hasTensorF heap f seen c with
        | none => rw [hc1] at h; simp at h
        | some r1 =>
          obtain ⟨b1, s1⟩ := r1
          rw [hc1] at h
          simp only [] at h
          cases hc2 : hasTensorChildren heap f s1 rest with
          | none => rw [hc2] at h; simp at h
          | some r2 =>
            obtain ⟨b2, s2⟩ := r2
            rw [hc2] at h
            cases h
            exact (ihF seen c (b1, s1) hc1).trans (ihC s1 rest (b2, s2) hc2)
    exact ⟨hF, hC⟩

theorem phi_suffix_le (heap : List (Nat × ObjKind)) (s s' : List (Nat × Bool))
    (hs : s <:+ s') : phi heap s' ≤ phi heap s :=
  phi_anti heap s s' (fun k hk => alistFind_isSome_of_suffix s s' k hs hk)

theorem hasTensor_isSome (heap : List (Nat × ObjKind)) :
    ∀ fuel : Nat,
      (∀ seen x, phi heap seen < fuel →
        (hasTensorF heap fuel seen x).isSome = true) ∧
      (∀ seen cs, cs.length + phi heap seen < fuel →
        (hasTensorChildren heap fuel seen cs).isSome = true) := by
  intro fuel
  induction fuel with
  | zero =>
    constructor
    · intro seen x h
      omega
    · intro seen cs h
      omega
  | succ f ih =>
    obtain ⟨ihF, ihC⟩ := ih
    have hF : ∀ seen x, phi heap seen < f + 1 →
        (hasTensorF heap (f + 1) seen x).isSome = true := by
      intro seen x hphi
      rw [hasTensorF]
      cases hfind : alistFind seen x with
      | some b => rfl
      | none =>
        simp only []
        cases hfh : alistFind heap x with
        | none =>
          simp only [hfh, Option.getD]
          rfl
        | some kd =>
          simp only [hfh, Option.getD]
          cases kd with
          | tensorOrModule => rfl
          | primitive => rfl
          | otherObj => rfl
          | listOrTuple cs =>
            have hb := phi_found heap seen x (ObjKind.listOrTuple cs) false hfind hfh
            simp only [childCount] at hb
            have hcc := ihC ((x, false) :: seen) cs (by omega)
            cases hc : hasTensorChildren heap f ((x, false) :: seen) cs with
            | none => rw [hc] at hcc; simp at hcc
            | some rr => simp [mapChildRes, hc]
          | dictObj cs =>
            have hb := phi_found heap seen x (ObjKind.dictObj cs) false hfind hfh
            simp only [childCount] at hb
            have hcc := ihC ((x, false) :: seen) cs (by omega)
            cases hc : hasTensorChildren heap f ((x, false) :: seen) cs with
            | none => rw [hc] at hcc; simp at hcc
            | some rr => simp [mapChildRes, hc]
          | namedtupleObj cs =>
            have hb := phi_found heap seen x (ObjKind.namedtupleObj cs) false hfind hfh
            simp only [childCount] at hb
            have hcc := ihC ((x, false) :: seen) cs (by omega)
            cases hc : hasTensorChildren heap f ((x, false) :: seen) cs with
            | none => rw [hc] at hcc; simp at hcc
            | some rr => simp [mapChildRes, hc]
          | objectDict cs =>
            have hb := phi_found heap seen x (ObjKind.objectDict cs) false hfind hfh
            simp only [childCount] at hb
            have hcc := ihC ((x, false) :: seen) cs (by omega)
            cases hc : hasTensorChildren heap f ((x, false) :: seen) cs with
            | none => rw [hc] at hcc; simp at hcc
            | some rr => simp [mapChildRes, hc]
    have hC : ∀ seen cs, cs.length + phi heap seen < f + 1 →
        (hasTensorChildren heap (f + 1) seen cs).isSome = true := by
      intro seen cs hlen
      cases cs with
      | nil => rw [hasTensorChildren]; rfl
      | cons c rest =>
        rw [hasTensorChildren]
        simp only [List.length_cons] at hlen
        have hc1some := ihF seen c (by omega)
        cases hc1 : hasTensorF heap f seen c with
        | none => rw [hc1] at hc1some; simp at hc1some
        | some r1 =>
          obtain ⟨b1, s1⟩ := r1
          simp only []
          have hsfx := (hasTensor_suffix heap f).1 seen c (b1, s1) hc1
          have hple := phi_suffix_le heap seen s1 hsfx
          have hc2some := ihC s1 rest (by omega)
          cases hc2 : hasTensorChildren heap f s1 rest with
          | none => rw [hc2] at hc2some; simp at hc2some
          | some r2 => rfl
    exact ⟨hF, hC⟩

theorem hasTensor_mono (heap : List (Nat × ObjKind)) :
    ∀ fuel : Nat,
      (∀ k, fuel ≤ k → ∀ seen x r, hasTensorF heap fuel seen x = some r →
        hasTensorF heap k seen x = some r) ∧
      (∀ k, fuel ≤ k → ∀ seen cs r, hasTensorChildren heap fuel seen cs = some r →
        hasTensorChildren heap k seen cs = some r) := by
  intro fuel
  induction fuel with
  | zero =>
    constructor
    · intro k hk seen x r h
      simp [hasTensorF] at h
    · intro k hk seen cs r h
      cases cs with
      | nil =>
        rw [hasTensorChildren] at h
        rw [hasTensorChildren]
        exact h
      | cons c rest => simp [hasTensorChildren] at h
  | succ f ih =>
    obtain ⟨ihF, ihC⟩ := ih
    have hF : ∀ k, f + 1 ≤ k → ∀ seen x r, hasTensorF heap (f + 1) seen x = some r →
        hasTensorF heap k seen x = some r := by
      intro k hk seen x r h
      cases k with
      | zero => omega
      | succ k2 =>
        have hk2 : f ≤ k2 := by omega
        rw [hasTensorF] at h
        cases hfind : alistFind seen x with
        | some b =>
          rw [hfind] at h
          cases h
          rw [hasTensorF, hfind]
        | none =>
          rw [hfind] at h
          simp only [] at h
          cases hkind : (alistFind heap x).getD ObjKind.otherObj with
          | tensorOrModule =>
            rw [hkind] at h
            cases h
            rw [hasTensorF, hfind]
            simp only []
            rw [hkind]
          | primitive =>
            rw [hkind] at h
            cases h
            rw [hasTensorF, hfind]
            simp only []
            rw [hkind]
          | otherObj =>
            rw [hkind] at h
            cases h
            rw [hasTensorF, hfind]
            simp only []
            rw [hkind]
          | listOrTuple cs =>
            rw [hkind] at h
            simp only [] at h
            cases hc : hasTensorChildren heap f ((x, false) :: seen) cs with
            | none => rw [hc] at h; simp [mapChildRes] at h
            | some rr =>
              rw [hc] at h
              rw [hasTensorF, hfind]
              simp only []
              rw [hkind]
              simp only []
              rw [ihC k2 hk2 ((x, false) :: seen) cs rr hc]
              exact h
          | dictObj cs =>
            rw [hkind] at h
            simp only [] at h
            cases hc : hasTensorChildren heap f ((x, false) :: seen) cs with
            | none => rw [hc] at h; simp [mapChildRes] at h
            | some rr =>
              rw [hc] at h
              rw [hasTensorF, hfind]
              simp only []
              rw [hkind]
              simp only []
              rw [ihC k2 hk2 ((x, false) :: seen) cs rr hc]
              exact h
          | namedtupleObj cs =>
            rw [hkind] at h
            simp only [] at h
            cases hc : hasTensorChildren heap f ((x, false) :: seen) cs with
            | none => rw [hc] at h; simp [mapChildRes] at h
            | some rr =>
              rw [hc] at h
              rw [hasTensorF, hfind]
              simp only []
              rw [hkind]
              simp only []
              rw [ihC k2 hk2 ((x, false) :: seen) cs rr hc]
              exact h
          | objectDict cs =>
            rw [hkind] at h
            simp only [] at h
            cases hc : hasTensorChildren heap f ((x, false) :: seen) cs with
            | none => rw [hc] at h; simp [mapChildRes] at h
            | some rr =>
              rw [hc] at h
              rw [hasTensorF, hfind]
              simp only []
              rw [hkind]
              simp only []
              rw [ihC k2 hk2 ((x, false) :: seen) cs rr hc]
              exact h
    have hC : ∀ k, f + 1 ≤ k → ∀ seen cs r,
        hasTensorChildren heap (f + 1) seen cs = some r →
        hasTensorChildren heap k seen cs = some r := by
      intro k hk seen cs r h
      cases k with
      | zero => omega
      | succ k2 =>
        have hk2 : f ≤ k2 := by omega
        cases cs with
        | nil =>
          rw [hasTensorChildren] at h
          rw [hasTensorChildren]
          exact h
        | cons c rest =>
          rw [hasTensorChildren] at h
          cases hc1 : hasTensorF heap f seen c with
          | none => rw [hc1] at h; simp at h
          | some r1 =>
            obtain ⟨b1, s1⟩ := r1
            rw [hc1] at h
            simp only [] at h
            cases hc2 : hasTensorChildren heap f s1 rest with
            | none => rw [hc2] at h; simp at h
            | some r2 =>
              rw [hc2] at h
              rw [hasTensorChildren]
              rw [ihF k2 hk2 seen c (b1, s1) hc1]
              simp only []
              rw [ihC k2 hk2 s1 rest r2 hc2]
              exact h
    exact ⟨hF, hC⟩

theorem hasTensorF_total (heap : List (Nat × ObjKind)) (x : Nat) :
    (hasTensorF heap (hasTensorFuel heap) [] x).isSome = true := by
  apply (hasTensor_isSome heap (hasTensorFuel heap)).1
  rw [hasTensorFuel]
  omega

theorem hasTensorF_stable (heap : List (Nat × ObjKind)) (x k : Nat)
    (hk : hasTensorFuel heap ≤ k) :
    hasTensorF heap k [] x = hasTensorF heap (hasTensorFuel heap) [] x := by
  have hsome := hasTensorF_total heap x
  cases hr : hasTensorF heap (hasTensorFuel heap) [] x with
  | none => rw [hr] at hsome; simp at hsome
  | some r => exact (hasTensor_mono heap (hasTensorFuel heap)).1 k hk [] x r hr

theorem hasTensorF_memoized (heap : List (Nat × ObjKind)) (fuel : Nat)
    (seen : List (Nat × Bool)) (x : Nat) (b : Bool)
    (h : alistFind seen x = some b) :
    hasTensorF heap (fuel + 1) seen x = some (b, seen) := by
  rw [hasTensorF, h]

theorem scanLocals_isSome (heap : List (Nat × ObjKind)) (fuel : Nat) :
    ∀ locals seen, phi heap seen < fuel →
      (scanLocals heap fuel seen locals).isSome = true := by
  intro locals
  induction locals with
  | nil =>
    intro seen h
    rw [scanLocals]
    rfl
  | cons v rest ih =>
    intro seen h
    rw [scanLocals]
    have hsome := (hasTensor_isSome heap fuel).1 seen v h
    cases hv : hasTensorF heap fuel seen v with
    | none => rw [hv] at hsome; simp at hsome
    | some r =>
      obtain ⟨b, s2⟩ := r
      cases b with
      | true => rfl
      | false =>
        simp only []
        apply ih s2
        have hsfx := (hasTensor_suffix heap fuel).1 seen v (false, s2) hv
        have := phi_suffix_le heap seen s2 hsfx
        omega

theorem scanLocals_top_isSome (heap : List (Nat × ObjKind)) (locals : List Nat) :
    (scanLocals heap (hasTensorFuel heap) [] locals).isSome = true := by
  apply scanLocals_isSome
  rw [hasTensorFuel]
  omega

/-- Any fatal result of `_convert_frame_assert` other than `AssertionError`
and `BackendCompilerFailed` is swallowed by `_convert_frame`, which returns
`None` instead. -/
theorem convert_frame_swallows_internal (flag : Bool) (env : ConvertEnv)
    (st : ConvState) (frame : Frame) (cache_size : Nat)
    (h : (_convert_frame_assert env st frame cache_size).1 =
      Except.error TracerExc.internalError) :
    (_convert_frame flag env st frame cache_size).1 = Except.ok none := by
  rcases hE : _convert_frame_assert env st frame cache_size with ⟨r0, st0⟩
  rw [hE] at h
  simp only at h
  subst h
  simp [_convert_frame, hE]

/-- C1: a frame whose code object is already recorded in the `output_codes`
tracker is never retraced — `_convert_frame_assert` returns `None` for it —
and every code object returned by a successful conversion has been added to
the `output_codes` tracker by the time it is returned. -/
theorem output_codes_skip_and_record
    (env : ConvertEnv) (st : ConvState) (frame : Frame) (cache_size : Nat) :
    (st.output_codes.mem frame.code.id = true →
      (_convert_frame_assert env st frame cache_size).1 = Except.ok none) ∧
    (∀ c, (_convert_frame_assert env st frame cache_size).1 = Except.ok (some c) →
      ((_convert_frame_assert env st frame cache_size).2).output_codes.mem c = true) := by
  constructor
  · intro h
    have hES : earlySkip st.output_codes env frame = true := by
      simp [earlySkip, h]
    rw [convert_assert_early env st frame cache_size hES]
  · exact convert_assert_records_output env st frame cache_size

/-- Witness for C1 at concrete inputs: a frame whose code id 7 is already in
`output_codes` converts to `None`, and a successful conversion producing
code id 42 leaves 42 recorded in `output_codes`. -/
theorem output_codes_skip_and_record_witness :
    (_convert_frame_assert (mkEnv (TransformOutcome.success 42))
      { emptyConvState with output_codes := { seen_ids := [7] } } tensorFrame 0).1 =
        Except.ok none ∧
    ((_convert_frame_assert (mkEnv (TransformOutcome.success 42))
      emptyConvState tensorFrame 0).2).output_codes.mem 42 = true := by
  constructor
  · exact (output_codes_skip_and_record _ _ _ _).1 (by decide)
  · apply (output_codes_skip_and_record _ _ _ _).2 42
    rw [convert_assert_tracing _ _ _ _ (by decide) (by decide) (by decide) (by decide)]
    rw [transformLoop_other]
    decide

/-- C2: when the per-code cache size has reached `config.cache_size_limit`
and the frame reaches the cache check (no earlier skip rule fired, not a
generator), conversion fails with `Unsupported("cache_size_limit reached")`
after logging a warning carrying the most recent guard-failure reason; and
whenever the cache size is at the limit the conversion never returns a new
`GuardedCode`, so the per-code cache never grows beyond the limit. -/
theorem cache_size_limit_blocks_compile
    (env : ConvertEnv) (st : ConvState) (frame : Frame) (cache_size : Nat) :
    (∀ (l : List String) (r : String),
       earlySkip st.output_codes env frame = false →
       frame.code.is_gen = false →
       env.cache_size_limit ≤ cache_size →
       alistFind env.guard_failures frame.code.id = some l →
       l.getLast? = some r →
       _convert_frame_assert env st frame cache_size =
         (Except.error (unimplemented "cache_size_limit reached"),
          { st with input_codes := st.input_codes.add frame.code.id,
                    log := LogEvent.cacheLimitWarning env.cache_size_limit
                      frame.code.co_name r :: st.log })) ∧
    (env.cache_size_limit ≤ cache_size →
      ∀ c, (_convert_frame_assert env st frame cache_size).1 ≠ Except.ok (some c)) := by
  constructor
  · intro l r h hg hcs hfind hlast
    exact convert_assert_cache_limit env st frame cache_size h hg hcs l r hfind hlast
  · intro hcs
    exact convert_assert_no_new_entry env st frame cache_size hcs

/-- Witness for C2 at a concrete call site whose cache is at the default
limit 64 and whose most recent recorded guard failure is "guard failed". -/
theorem cache_size_limit_blocks_compile_witness :
    _convert_frame_assert
        { mkEnv (TransformOutcome.success 42) with
            guard_failures := [(7, ["guard failed"])] }
        emptyConvState tensorFrame 64 =
      (Except.error (unimplemented "cache_size_limit reached"),
       { emptyConvState with
          input_codes := emptyConvState.input_codes.add 7,
          log := [LogEvent.cacheLimitWarning 64 "f" "guard failed"] }) ∧
    (_convert_frame_assert
        { mkEnv (TransformOutcome.success 42) with
            guard_failures := [(7, ["guard failed"])] }
        emptyConvState tensorFrame 64).1 ≠ Except.ok (some 42) := by
  constructor
  · exact (cache_size_limit_blocks_compile _ _ _ _).1 ["guard failed"] "guard failed"
      (by decide) (by decide) (by decide) (by decide) (by decide)
  · exact (cache_size_limit_blocks_compile _ _ _ _).2 (by decide) 42

/-- C3: `_convert_frame` re-raises `BackendCompilerFailed` from the inner
conversion, returns `None` for every `Unsupported` failure (unrepresentable
construct, cache limit, skip), and passes successful results through. -/
theorem backend_error_propagates_unsupported_handled (flag : Bool)
    (env : ConvertEnv) (st : ConvState) (frame : Frame) (cache_size : Nat) :
    ((_convert_frame_assert env st frame cache_size).1 =
        Except.error TracerExc.backendCompilerFailed →
      (_convert_frame flag env st frame cache_size).1 =
        Except.error TracerExc.backendCompilerFailed) ∧
    (∀ msg, (_convert_frame_assert env st frame cache_size).1 =
        Except.error (TracerExc.unsupported msg) →
      (_convert_frame flag env st frame cache_size).1 = Except.ok none) ∧
    (∀ r, (_convert_frame_assert env st frame cache_size).1 = Except.ok r →
      (_convert_frame flag env st frame cache_size).1 = Except.ok r) := by
  rcases hE : _convert_frame_assert env st frame cache_size with ⟨r0, st0⟩
  refine ⟨?_, ?_, ?_⟩
  · intro h
    simp only at h
    subst h
    simp [_convert_frame, hE]
  · intro msg h
    simp only at h
    subst h
    simp [_convert_frame, hE]
  · intro r h
    simp only at h
    subst h
    simp [_convert_frame, hE]

/-- Witness for C3: a backend failure propagates out of `_convert_frame`
while an `Unsupported` failure is handled by returning `None`. -/
theorem backend_error_propagates_unsupported_handled_witness :
    (_convert_frame false (mkEnv (TransformOutcome.raised TracerExc.backendCompilerFailed))
        emptyConvState tensorFrame 0).1 =
      Except.error TracerExc.backendCompilerFailed ∧
    (_convert_frame false (mkEnv (TransformOutcome.raised (TracerExc.unsupported "call")))
        emptyConvState tensorFrame 0).1 = Except.ok none := by
  constructor
  · apply (backend_error_propagates_unsupported_handled false _ _ _ _).1
    rw [convert_assert_tracing _ _ _ _ (by decide) (by decide) (by decide) (by decide)]
    rw [transformLoop_other]
    decide
  · apply (backend_error_propagates_unsupported_handled false _ _ _ _).2.1 "call"
    rw [convert_assert_tracing _ _ _ _ (by decide) (by decide) (by decide) (by decide)]
    rw [transformLoop_other]
    decide

/-- C4 counterexample: with a tracer raising the unexpected exception
`other 3`, the inner `_convert_frame_assert` does wrap it as
`InternalTorchDynamoError`, but the error-catching entry point
`_convert_frame` swallows it and returns `None` — refuting "always surfaced
to the caller of the conversion entry points, never silently swallowed". -/
theorem internal_error_swallowed_counterexample :
    (_convert_frame_assert (mkEnv (TransformOutcome.raised (TracerExc.other 3)))
        emptyConvState tensorFrame 0).1 = Except.error TracerExc.internalError ∧
    (_convert_frame false (mkEnv (TransformOutcome.raised (TracerExc.other 3)))
        emptyConvState tensorFrame 0).1 = Except.ok none := by
  have h1 : (_convert_frame_assert (mkEnv (TransformOutcome.raised (TracerExc.other 3)))
      emptyConvState tensorFrame 0).1 = Except.error TracerExc.internalError := by
    rw [convert_assert_tracing _ _ _ _ (by decide) (by decide) (by decide) (by decide)]
    rw [transformLoop_other]
    decide
  exact ⟨h1, convert_frame_swallows_internal false _ _ _ _ h1⟩

/-- C4 (amended): an unexpected exception (neither `Unsupported`,
`TorchRuntimeError`, `BackendCompilerFailed` nor `AssertionError`) raised by
the transform or by guard construction is wrapped as
`InternalTorchDynamoError` and surfaced from `_convert_frame_assert`; the
error-catching entry point `_convert_frame` catches it and returns `None`
(the original code runs) instead of surfacing it. -/
theorem internal_error_wrapped_but_swallowed (flag : Bool)
    (env : ConvertEnv) (st : ConvState) (frame : Frame) (cache_size : Nat) :
    (∀ t, earlySkip st.output_codes env frame = false →
       frame.code.is_gen = false →
       cache_size < env.cache_size_limit →
       has_tensor_in_frame env.heap frame = true →
       transformLoop env.outcomes 0 = TransformLoopResult.raised (TracerExc.other t) →
       (_convert_frame_assert env st frame cache_size).1 =
         Except.error TracerExc.internalError) ∧
    (∀ t c, earlySkip st.output_codes env frame = false →
       frame.code.is_gen = false →
       cache_size < env.cache_size_limit →
       has_tensor_in_frame env.heap frame = true →
       transformLoop env.outcomes 0 = TransformLoopResult.success c →
       env.post = some (TracerExc.other t) →
       (_convert_frame_assert env st frame cache_size).1 =
         Except.error TracerExc.internalError) ∧
    ((_convert_frame_assert env st frame cache_size).1 =
        Except.error TracerExc.internalError →
      (_convert_frame flag env st frame cache_size).1 = Except.ok none) := by
  refine ⟨?_, ?_, convert_frame_swallows_internal flag env st frame cache_size⟩
  · intro t hES hg hcs ht hloop
    rw [convert_assert_tracing env st frame cache_size hES hg hcs ht, hloop]
    simp [dispatchExc]
  · intro t c hES hg hcs ht hloop hpost
    rw [convert_assert_tracing env st frame cache_size hES hg hcs ht, hloop]
    simp only []
    rw [hpost]
    simp [dispatchExc]

/-- Witness for C4's amended statement at concrete inputs. -/
theorem internal_error_wrapped_but_swallowed_witness :
    (_convert_frame_assert (mkEnv (TransformOutcome.raised (TracerExc.other 5)))
        emptyConvState tensorFrame 0).1 = Except.error TracerExc.internalError ∧
    (_convert_frame true (mkEnv (TransformOutcome.raised (TracerExc.other 5)))
        emptyConvState tensorFrame 0).1 = Except.ok none := by
  have h1 : (_convert_frame_assert (mkEnv (TransformOutcome.raised (TracerExc.other 5)))
      emptyConvState tensorFrame 0).1 = Except.error TracerExc.internalError := by
    apply (internal_error_wrapped_but_swallowed true _ _ _ _).1 5
      (by decide) (by decide) (by decide) (by decide)
    rw [transformLoop_other]
    decide
  exact ⟨h1, (internal_error_wrapped_but_swallowed true _ _ _ _).2.2 h1⟩

/-- C5 counterexample: a generator frame with no tensor anywhere in its
locals is rejected with `Unsupported("generator")`, not skipped with `None`
— refuting the claimed rule order (no-tensor skip before generator
rejection). -/
theorem generator_before_tensor_counterexample :
    (_convert_frame_assert (mkEnv (TransformOutcome.success 0))
        emptyConvState genFrameNoTensor 0).1 =
      Except.error (TracerExc.unsupported "generator") ∧
    ¬ (_convert_frame_assert (mkEnv (TransformOutcome.success 0))
        emptyConvState genFrameNoTensor 0).1 = Except.ok none := by
  constructor
  · decide
  · decide

/-- C5 (amended): the generator rejection is decided before both the
cache-limit check and the tensor-presence skip: once no earlier silent skip
rule fires, a generator frame is rejected with `Unsupported("generator")`
for every cache size and regardless of its locals. -/
theorem generator_rejected_before_tensor_skip
    (env : ConvertEnv) (st : ConvState) (frame : Frame) (cache_size : Nat)
    (h : earlySkip st.output_codes env frame = false)
    (hg : frame.code.is_gen = true) :
    (_convert_frame_assert env st frame cache_size).1 =
      Except.error (TracerExc.unsupported "generator") := by
  rw [convert_assert_generator env st frame cache_size h hg]
  rfl

/-- Witness for C5's amended statement: the tensor-free generator frame at a
cache size past the limit is still rejected as a generator. -/
theorem generator_rejected_before_tensor_skip_witness :
    (_convert_frame_assert (mkEnv (TransformOutcome.success 0))
        emptyConvState genFrameNoTensor 1000).1 =
      Except.error (TracerExc.unsupported "generator") :=
  generator_rejected_before_tensor_skip (mkEnv (TransformOutcome.success 0))
    emptyConvState genFrameNoTensor 1000 (by decide) (by decide)

/-- C6: each `RestartAnalysis` retries the whole transformation from attempt
zero's transform again (the loop simply advances the attempt counter); once
the counter exceeds the ceiling of 100 a further restart raises
`Unsupported` instead of retrying; the loop only ever consults attempts
0..101, so it always terminates; a tracer that restarts forever yields
`Unsupported("100+ RestartAnalysis() calls")`, which surfaces from
`_convert_frame_assert` as that `Unsupported` error. -/
theorem restart_analysis_bounded_retry :
    (∀ (outcomes : Nat → TransformOutcome) (a : Nat),
       outcomes a = TransformOutcome.restartAnalysis → a ≤ 100 →
       transformLoop outcomes a = transformLoop outcomes (a + 1)) ∧
    (∀ (outcomes : Nat → TransformOutcome) (a : Nat),
       outcomes a = TransformOutcome.restartAnalysis → 100 < a →
       transformLoop outcomes a =
         TransformLoopResult.raised (unimplemented "100+ RestartAnalysis() calls")) ∧
    (∀ outcomes outcomes' : Nat → TransformOutcome,
       (∀ k, k ≤ 101 → outcomes k = outcomes' k) →
       transformLoop outcomes 0 = transformLoop outcomes' 0) ∧
    (∀ outcomes : Nat → TransformOutcome,
       (∀ k, outcomes k = TransformOutcome.restartAnalysis) →
       transformLoop outcomes 0 =
         TransformLoopResult.raised (unimplemented "100+ RestartAnalysis() calls")) ∧
    (∀ (env : ConvertEnv) (st : ConvState) (frame : Frame) (cache_size : Nat),
       earlySkip st.output_codes env frame = false →
       frame.code.is_gen = false →
       cache_size < env.cache_size_limit →
       has_tensor_in_frame env.heap frame = true →
       (∀ k, env.outcomes k = TransformOutcome.restartAnalysis) →
       (_convert_frame_assert env st frame cache_size).1 =
         Except.error (TracerExc.unsupported "100+ RestartAnalysis() calls")) := by
  refine ⟨transformLoop_retry, transformLoop_ceiling, ?_, ?_, ?_⟩
  · intro o o' hag
    exact transformLoop_congr_aux 101 0 o o' (by omega) (by omega)
      (fun k _ hk2 => hag k hk2)
  · intro o hall
    exact transformLoop_allRestart_aux 101 0 o (by omega) (by omega) hall
  · intro env st frame cache_size hES hg hcs ht hall
    rw [convert_assert_tracing env st frame cache_size hES hg hcs ht]
    rw [transformLoop_allRestart_aux 101 0 env.outcomes (by omega) (by omega) hall]
    rfl

/-- Witness for C6 with the always-restarting transform oracle. -/
theorem restart_analysis_bounded_retry_witness :
    transformLoop (fun _ => TransformOutcome.restartAnalysis) 0 =
      TransformLoopResult.raised (unimplemented "100+ RestartAnalysis() calls") ∧
    (_convert_frame_assert (mkEnv TransformOutcome.restartAnalysis)
        emptyConvState tensorFrame 0).1 =
      Except.error (TracerExc.unsupported "100+ RestartAnalysis() calls") := by
  constructor
  · exact restart_analysis_bounded_retry.2.2.2.1 (fun _ => TransformOutcome.restartAnalysis)
      (fun _ => rfl)
  · exact restart_analysis_bounded_retry.2.2.2.2 (mkEnv TransformOutcome.restartAnalysis)
      emptyConvState tensorFrame 0 (by decide) (by decide) (by decide) (by decide)
      (fun _ => rfl)

/-- C7: when the tracer raises `SkipFrame`, `_convert_frame_assert` returns
`None` (so the original unmodified code runs this once), records only a
debug-level log event, and does not touch the `output_codes` tracker, so
nothing prevents a future tracing attempt for this code object. -/
theorem skip_frame_runs_original_once
    (env : ConvertEnv) (st : ConvState) (frame : Frame) (cache_size : Nat)
    (hES : earlySkip st.output_codes env frame = false)
    (hg : frame.code.is_gen = false)
    (hcs : cache_size < env.cache_size_limit)
    (ht : has_tensor_in_frame env.heap frame = true)
    (hskip : transformLoop env.outcomes 0 = TransformLoopResult.skipped) :
    (_convert_frame_assert env st frame cache_size).1 = Except.ok none ∧
    ((_convert_frame_assert env st frame cache_size).2).output_codes =
      st.output_codes ∧
    ((_convert_frame_assert env st frame cache_size).2).log =
      LogEvent.skipFrameDebug frame.code.co_name :: st.log := by
  rw [convert_assert_tracing env st frame cache_size hES hg hcs ht, hskip]
  exact ⟨rfl, rfl, rfl⟩

/-- Witness for C7 at a concrete frame whose transform raises `SkipFrame`. -/
theorem skip_frame_runs_original_once_witness :
    (_convert_frame_assert (mkEnv TransformOutcome.skipFrame)
        emptyConvState tensorFrame 0).1 = Except.ok none ∧
    ((_convert_frame_assert (mkEnv TransformOutcome.skipFrame)
        emptyConvState tensorFrame 0).2).output_codes =
      emptyConvState.output_codes := by
  have h := skip_frame_runs_original_once (mkEnv TransformOutcome.skipFrame)
    emptyConvState tensorFrame 0 (by decide) (by decide) (by decide) (by decide)
    (by rw [transformLoop_other]; decide)
  exact ⟨h.1, h.2.1⟩

/-- C8: one call through `wrap_convert_context` returns exactly what the
wrapped conversion returned (value or exception), and on exit the grad
mode, the CPU RNG state, the CUDA RNG state (when CUDA is available) and
the monkeypatched `_forward_from_src` hook are restored to their prior
values, while other state mutated by the wrapped function is not
restored. -/
theorem convert_context_restores_state {E A : Type} (cuda_available : Bool)
    (fn : GlobalState → Except E A × GlobalState) (s : GlobalState) :
    (wrap_convert_context cuda_available fn s).1 =
      (fn { s with fwd_from_src := fxForwardFromSrcSkipResultId }).1 ∧
    ((wrap_convert_context cuda_available fn s).2).grad_mode = s.grad_mode ∧
    ((wrap_convert_context cuda_available fn s).2).rng_state = s.rng_state ∧
    ((wrap_convert_context cuda_available fn s).2).cuda_rng_state =
      (if cuda_available then s.cuda_rng_state
       else ((fn { s with fwd_from_src := fxForwardFromSrcSkipResultId }).2).cuda_rng_state) ∧
    ((wrap_convert_context cuda_available fn s).2).fwd_from_src = s.fwd_from_src ∧
    ((wrap_convert_context cuda_available fn s).2).extra =
      ((fn { s with fwd_from_src := fxForwardFromSrcSkipResultId }).2).extra := by
  refine ⟨rfl, rfl, rfl, rfl, rfl, rfl⟩

/-- C9: with correctness verification enabled, the backend wrapper returns
the original forward when the backend declines (`None` or the original
forward itself); when the backend yields a distinct candidate and both runs
complete, the candidate is returned exactly when `same` holds of the two
results, and a mismatch raises `RuntimeError` instead of returning the
compiled path. -/
theorem wrapper_backend_verifies (gm_forward candidate : Nat)
    (correct result : Nat) (correct_run result_run : Except Nat Nat)
    (same : Nat → Nat → Bool) :
    (wrapperBackendCall true gm_forward none correct_run result_run same =
       BackendCallResult.callable gm_forward) ∧
    (wrapperBackendCall true gm_forward (some gm_forward) correct_run result_run same =
       BackendCallResult.callable gm_forward) ∧
    (candidate ≠ gm_forward → correct_run = Except.ok correct →
      result_run = Except.ok result → same correct result = true →
      wrapperBackendCall true gm_forward (some candidate) correct_run result_run same =
        BackendCallResult.callable candidate) ∧
    (candidate ≠ gm_forward → correct_run = Except.ok correct →
      result_run = Except.ok result → same correct result = false →
      wrapperBackendCall true gm_forward (some candidate) correct_run result_run same =
        BackendCallResult.raisedRuntimeError "incorrect results of backend") ∧
    (candidate ≠ gm_forward → correct_run = Except.ok correct →
      result_run = Except.ok result →
      wrapperBackendCall true gm_forward (some candidate) correct_run result_run same =
        BackendCallResult.callable candidate →
      same correct result = true) := by
  refine ⟨?_, ?_, ?_, ?_, ?_⟩
  · rfl
  · simp [wrapperBackendCall]
  · intro hc h1 h2 hs
    simp [wrapperBackendCall, hc, h1, h2, hs]
  · intro hc h1 h2 hs
    simp [wrapperBackendCall, hc, h1, h2, hs]
  · intro hc h1 h2 heq
    cases hsv : same correct result with
    | true => rfl
    | false =>
      exfalso
      simp [wrapperBackendCall, hc, h1, h2, hsv] at heq

/-- Witness for C9 at concrete callables: forward id 0, candidate id 1,
matching results 5/5 accept the candidate, mismatching results 5/6 raise. -/
theorem wrapper_backend_verifies_witness :
    wrapperBackendCall true 0 (some 1) (Except.ok 5) (Except.ok 5)
        (fun a b => a == b) = BackendCallResult.callable 1 ∧
    wrapperBackendCall true 0 (some 1) (Except.ok 5) (Except.ok 6)
        (fun a b => a == b) =
      BackendCallResult.raisedRuntimeError "incorrect results of backend" ∧
    wrapperBackendCall true 0 none (Except.ok 5) (Except.ok 5)
        (fun a b => a == b) = BackendCallResult.callable 0 := by
  refine ⟨?_, ?_, ?_⟩
  · exact (wrapper_backend_verifies 0 1 5 5 (Except.ok 5) (Except.ok 5)
      (fun a b => a == b)).2.2.1 (by decide) rfl rfl (by decide)
  · exact (wrapper_backend_verifies 0 1 5 6 (Except.ok 5) (Except.ok 6)
      (fun a b => a == b)).2.2.2.1 (by decide) rfl rfl (by decide)
  · exact (wrapper_backend_verifies 0 1 5 5 (Except.ok 5) (Except.ok 5)
      (fun a b => a == b)).1

/-- C10: the memoizing tensor scan terminates on every object graph,
including cyclic and shared structures: its result is stable for any fuel
at least `hasTensorFuel heap` (and is then defined, `isSome`); an id
already memoized in `seen_ids` — in particular one pre-marked `False`
during its own visit — returns the memoized value immediately without
revisiting the object; consequently the self-referential list of
`cycleHeap`, reachable only through its own cycle, scans to `False`. -/
theorem has_tensor_scan_terminates (heap : List (Nat × ObjKind)) (x : Nat) :
    (∀ k, hasTensorFuel heap ≤ k →
       hasTensorF heap k [] x = hasTensorF heap (hasTensorFuel heap) [] x ∧
       (hasTensorF heap k [] x).isSome = true) ∧
    (∀ (fuel : Nat) (seen : List (Nat × Bool)) (b : Bool),
       alistFind seen x = some b →
       hasTensorF heap (fuel + 1) seen x = some (b, seen)) ∧
    hasTensorF cycleHeap (hasTensorFuel cycleHeap) [] 0 =
      some (false, [(0, false), (0, false)]) := by
  refine ⟨?_, ?_, ?_⟩
  · intro k hk
    constructor
    · exact hasTensorF_stable heap x k hk
    · rw [hasTensorF_stable heap x k hk]
      exact hasTensorF_total heap x
  · intro fuel seen b hfind
    exact hasTensorF_memoized heap fuel seen x b hfind
  · rfl

/-- Witness for C10: stability of the scan over the cyclic heap at fuel 10,
and the memoized immediate return for the pre-marked id 0. -/
theorem has_tensor_scan_terminates_witness :
    hasTensorF cycleHeap 10 [] 0 =
      hasTensorF cycleHeap (hasTensorFuel cycleHeap) [] 0 ∧
    hasTensorF cycleHeap 7 [(0, false)] 0 = some (false, [(0, false)]) := by
  constructor
  · exact ((has_tensor_scan_terminates cycleHeap 0).1 10 (by decide)).1
  · exact (has_tensor_scan_terminates cycleHeap 0).2.1 6 [(0, false)] false (by decide)
